import Mathlib

/-!
Verification of the retrieval & ranking pipeline and the LLM structured-output
retry protocol of the learningPathDesigner repository.

The Python source is shallowly embedded: dictionaries become structures with
`Option` fields (`none` = the key is absent or holds Python `None`),
machine floats that are only compared and copied are modelled by `ℚ`,
exceptions become `Except` values over an explicit error inductive, and
calls to external collaborators (the Qdrant index, the inference HTTP
backends, the OpenAI SDK, `json.loads`, pydantic validation) are oracle
parameters.
-/

namespace LPD

/-! ## Filter builder (`src/services/rag/search.py`, `SearchService.build_filter`)

A search filter arrives as a Python dict.  The optional keys it may carry are
modelled as `Option` fields; `none` means the key is absent or its value is
Python `None` (the two are indistinguishable to `dict.get`).  Python's falsy
test on a whole dict (`if not search_filter`) is true for `None` and for the
empty dict; both are mapped to the `none` case of `Option FilterDict` (the
two produce the same output filter in the source). -/

structure FilterDict where
  tenant_id : Option String := none
  level : Option Int := none
  max_duration_min : Option Int := none
  media_type : Option String := none
  provider : Option String := none
  skills : Option (List String) := none
deriving DecidableEq

/-- A Qdrant `FieldCondition`: either `match=MatchValue(value=v)` or
`range=Range(lte=b)`. -/
inductive QCondB where
  | matchStr (key : String) (value : String)
  | rangeLte (key : String) (bound : Int)
deriving DecidableEq

/-- A condition in the `must` list of the built filter: either a field
condition or a nested `Filter(should=[...])` disjunction (the only nested
shape `build_filter` constructs). -/
inductive QCond where
  | base (c : QCondB)
  | shouldOr (cs : List QCondB)
deriving DecidableEq

/-- A Qdrant `Filter(must=conditions)` as built by `build_filter`. -/
structure QFilter where
  must : List QCond
deriving DecidableEq

/-- The tenant condition appended first by `build_filter`:
`tenant_id == "global"` gives the plain global match, any other tenant gives
`Filter(should=[tenant_id="global", tenant_id=t])`. -/
def tenantCond (t : String) : QCond :=
  if t = "global" then QCond.base (.matchStr "tenant_id" "global")
  else QCond.shouldOr [.matchStr "tenant_id" "global", .matchStr "tenant_id" t]

/-- The level condition: `if search_filter.get("level") is not None` — every
present value is included, `0` included. -/
def levelConds (f : FilterDict) : List QCond :=
  match f.level with
  | some v => [QCond.base (.rangeLte "level" v)]
  | none => []

/-- The duration condition: `if search_filter.get("max_duration_min")` —
Python truthiness, so a present `0` is skipped. -/
def durationConds (f : FilterDict) : List QCond :=
  match f.max_duration_min with
  | some v => if v = 0 then [] else [QCond.base (.rangeLte "duration_min" v)]
  | none => []

/-- The media-type condition: `if search_filter.get("media_type")` — Python
truthiness, so a present `""` is skipped. -/
def mediaTypeConds (f : FilterDict) : List QCond :=
  match f.media_type with
  | some s => if s = "" then [] else [QCond.base (.matchStr "media_type" s)]
  | none => []

/-- The provider condition: `if search_filter.get("provider")` — Python
truthiness, so a present `""` is skipped. -/
def providerConds (f : FilterDict) : List QCond :=
  match f.provider with
  | some s => if s = "" then [] else [QCond.base (.matchStr "provider" s)]
  | none => []

/-- The optional metadata conditions, in the order the source appends them. -/
def optConds (f : FilterDict) : List QCond :=
  levelConds f ++ durationConds f ++ mediaTypeConds f ++ providerConds f

/-- `SearchService.build_filter`.  `none` input covers Python `None` and the
empty dict (both falsy); the returned `none` would mean "no filter"
(match everything) to Qdrant. -/
def buildFilter : Option FilterDict → Option QFilter
  | none => some ⟨[QCond.base (.matchStr "tenant_id" "global")]⟩
  | some f =>
    let conditions := tenantCond (f.tenant_id.getD "global") :: optConds f
    if conditions.isEmpty then none else some ⟨conditions⟩

/-! ### Qdrant predicate semantics

The payload of an indexed point, restricted to the fields the built filters
mention.  `none` = the payload key is absent (a Qdrant `match`/`range`
condition on a missing key does not match). -/

structure Payload where
  tenant_id : Option String := none
  level : Option Int := none
  duration_min : Option Int := none
  media_type : Option String := none
  provider : Option String := none
deriving DecidableEq

def payloadStr (p : Payload) : String → Option String
  | "tenant_id" => p.tenant_id
  | "media_type" => p.media_type
  | "provider" => p.provider
  | _ => none

def payloadInt (p : Payload) : String → Option Int
  | "level" => p.level
  | "duration_min" => p.duration_min
  | _ => none

def evalCondB (p : Payload) : QCondB → Bool
  | .matchStr k v => payloadStr p k == some v
  | .rangeLte k b =>
    match payloadInt p k with
    | some x => decide (x ≤ b)
    | none => false

def evalCond (p : Payload) : QCond → Bool
  | .base c => evalCondB p c
  | .shouldOr cs => cs.any (evalCondB p)

/-- `Filter(must=...)`: all conditions must hold. -/
def evalQFilter (p : Payload) (f : QFilter) : Bool :=
  f.must.all (evalCond p)

/-- A `None` filter imposes no constraint (Qdrant matches every point). -/
def evalOptFilter (p : Payload) : Option QFilter → Bool
  | none => true
  | some f => evalQFilter p f

/-- A condition arising from a supplied truthy value of the filter dict: the
level predicate for any present level, and the duration/media_type/provider
predicates for present non-zero / non-empty values (Python truthiness,
which is what the source's guards test). -/
def condFromTruthySupplied (f : FilterDict) (c : QCond) : Prop :=
  (∃ v, f.level = some v ∧ c = QCond.base (.rangeLte "level" v)) ∨
  (∃ v, f.max_duration_min = some v ∧ v ≠ 0 ∧ c = QCond.base (.rangeLte "duration_min" v)) ∨
  (∃ s, f.media_type = some s ∧ s ≠ "" ∧ c = QCond.base (.matchStr "media_type" s)) ∨
  (∃ s, f.provider = some s ∧ s ≠ "" ∧ c = QCond.base (.matchStr "provider" s))

/-- The constraint the optional predicates impose on a payload: every
supplied truthy value constrains (conjoined), absent — or supplied falsy —
values impose no constraint. -/
def suppliedConstraints (f : FilterDict) (p : Payload) : Prop :=
  (∀ v, f.level = some v → ∃ x, p.level = some x ∧ x ≤ v)
  ∧ (∀ v, f.max_duration_min = some v → v ≠ 0 → ∃ x, p.duration_min = some x ∧ x ≤ v)
  ∧ (∀ s, f.media_type = some s → s ≠ "" → p.media_type = some s)
  ∧ (∀ s, f.provider = some s → s ≠ "" → p.provider = some s)

/-! ## `/search` request boundary (`src/services/rag/models.py`, `main.py`)

`SearchFilter` is the pydantic request model for `/search`; it has no
`tenant_id` field. -/

structure SearchFilter where
  level : Option Int := none
  max_duration_min : Option Int := none
  skills : Option (List String) := none
  media_type : Option String := none
  provider : Option String := none
deriving DecidableEq

/-- `request.filters.model_dump()`: every declared field becomes a dict key;
there is no `tenant_id` key. -/
def searchFilterDump (sf : SearchFilter) : FilterDict :=
  { tenant_id := none
    level := sf.level
    max_duration_min := sf.max_duration_min
    media_type := sf.media_type
    provider := sf.provider
    skills := sf.skills }

/-- `filters_dict = request.filters.model_dump() if request.filters else None`
(from `search_resources` in `src/services/rag/main.py`). -/
def searchFiltersDict : Option SearchFilter → Option FilterDict
  | none => none
  | some sf => some (searchFilterDump sf)

end LPD

namespace LPD

/-! ## Theorems: filter builder -/

theorem mem_levelConds (f : FilterDict) (c : QCond) :
    c ∈ levelConds f ↔ ∃ v, f.level = some v ∧ c = QCond.base (.rangeLte "level" v) := by
  rcases hl : f.level with _ | v <;> simp [levelConds, hl]

theorem mem_durationConds (f : FilterDict) (c : QCond) :
    c ∈ durationConds f ↔
      ∃ v, f.max_duration_min = some v ∧ v ≠ 0 ∧
        c = QCond.base (.rangeLte "duration_min" v) := by
  rcases hd : f.max_duration_min with _ | v
  · simp [durationConds, hd]
  · by_cases h0 : v = 0 <;> simp [durationConds, hd, h0]

theorem mem_mediaTypeConds (f : FilterDict) (c : QCond) :
    c ∈ mediaTypeConds f ↔
      ∃ s, f.media_type = some s ∧ s ≠ "" ∧ c = QCond.base (.matchStr "media_type" s) := by
  rcases hm : f.media_type with _ | s
  · simp [mediaTypeConds, hm]
  · by_cases h0 : s = "" <;> simp [mediaTypeConds, hm, h0]

theorem mem_providerConds (f : FilterDict) (c : QCond) :
    c ∈ providerConds f ↔
      ∃ s, f.provider = some s ∧ s ≠ "" ∧ c = QCond.base (.matchStr "provider" s) := by
  rcases hp : f.provider with _ | s
  · simp [providerConds, hp]
  · by_cases h0 : s = "" <;> simp [providerConds, hp, h0]

/-- A condition is in the built optional list exactly when it is the
predicate of a supplied truthy value: both the only-if and the inclusion
direction. -/
theorem mem_optConds_iff (f : FilterDict) (c : QCond) :
    c ∈ optConds f ↔ condFromTruthySupplied f c := by
  unfold optConds condFromTruthySupplied
  simp only [List.mem_append, mem_levelConds, mem_durationConds, mem_mediaTypeConds,
    mem_providerConds]
  rw [or_assoc, or_assoc]

theorem buildFilter_some (f : FilterDict) :
    buildFilter (some f) = some ⟨tenantCond (f.tenant_id.getD "global") :: optConds f⟩ := by
  simp [buildFilter]

theorem evalCond_rangeLte_iff (p : Payload) (k : String) (b : Int) :
    evalCond p (QCond.base (.rangeLte k b)) = true ↔
      ∃ x, payloadInt p k = some x ∧ x ≤ b := by
  rcases h : payloadInt p k with _ | x <;> simp [evalCond, evalCondB, h]

theorem evalCond_matchStr_iff (p : Payload) (k v : String) :
    evalCond p (QCond.base (.matchStr k v)) = true ↔ payloadStr p k = some v := by
  simp [evalCond, evalCondB]

/-- Semantics of the optional conditions: they hold of a payload exactly when
every supplied truthy value's predicate holds — the conjunction of the
claim, with absent (or falsy) values imposing no constraint. -/
theorem optConds_all_iff (f : FilterDict) (p : Payload) :
    (optConds f).all (evalCond p) = true ↔ suppliedConstraints f p := by
  rw [List.all_eq_true]
  constructor
  · intro h
    refine ⟨?_, ?_, ?_, ?_⟩
    · intro v hv
      have hc : QCond.base (.rangeLte "level" v) ∈ optConds f :=
        (mem_optConds_iff f _).mpr (Or.inl ⟨v, hv, rfl⟩)
      simpa [payloadInt] using (evalCond_rangeLte_iff p "level" v).mp (h _ hc)
    · intro v hv hv0
      have hc : QCond.base (.rangeLte "duration_min" v) ∈ optConds f :=
        (mem_optConds_iff f _).mpr (Or.inr (Or.inl ⟨v, hv, hv0, rfl⟩))
      simpa [payloadInt] using (evalCond_rangeLte_iff p "duration_min" v).mp (h _ hc)
    · intro s hs hs0
      have hc : QCond.base (.matchStr "media_type" s) ∈ optConds f :=
        (mem_optConds_iff f _).mpr (Or.inr (Or.inr (Or.inl ⟨s, hs, hs0, rfl⟩)))
      simpa [payloadStr] using (evalCond_matchStr_iff p "media_type" s).mp (h _ hc)
    · intro s hs hs0
      have hc : QCond.base (.matchStr "provider" s) ∈ optConds f :=
        (mem_optConds_iff f _).mpr (Or.inr (Or.inr (Or.inr ⟨s, hs, hs0, rfl⟩)))
      simpa [payloadStr] using (evalCond_matchStr_iff p "provider" s).mp (h _ hc)
  · rintro ⟨h1, h2, h3, h4⟩ c hc
    rcases (mem_optConds_iff f c).mp hc with ⟨v, hv, rfl⟩ | ⟨v, hv, hv0, rfl⟩ |
      ⟨s, hs, hs0, rfl⟩ | ⟨s, hs, hs0, rfl⟩
    · rw [evalCond_rangeLte_iff]
      simpa [payloadInt] using h1 v hv
    · rw [evalCond_rangeLte_iff]
      simpa [payloadInt] using h2 v hv hv0
    · rw [evalCond_matchStr_iff]
      simpa [payloadStr] using h3 s hs hs0
    · rw [evalCond_matchStr_iff]
      simpa [payloadStr] using h4 s hs hs0

/-- A filter headed by the global tenant match only accepts global-tenant
payloads. -/
theorem evalQFilter_global_head (p : Payload) (rest : List QCond)
    (h : evalQFilter p ⟨QCond.base (.matchStr "tenant_id" "global") :: rest⟩ = true) :
    p.tenant_id = some "global" := by
  simp only [evalQFilter, List.all_cons, Bool.and_eq_true, evalCond, evalCondB, payloadStr,
    beq_iff_eq] at h
  exact h.1

/-- C1 (amended): the filter builder maps every query filter to the tenant
clause conjoined with the predicate of every supplied TRUTHY optional value
(level whenever present, duration/media_type/provider when present and
non-zero/non-empty), and nothing else; absent — or supplied falsy — values
impose no constraint.  With no filter the predicate is exactly the
`tenant_id = "global"` match; with tenant absent or `"global"` the tenant
clause is the global match; with tenant `t ≠ "global"` it is the
`global OR t` disjunction.  Stated both structurally (the built condition
list, with membership characterised in both directions) and semantically
(a payload matches iff the tenant clause and every supplied truthy
predicate hold of it). -/
theorem build_filter_conjoins_supplied :
    (buildFilter none = some ⟨[QCond.base (.matchStr "tenant_id" "global")]⟩ ∧
      ∀ p : Payload, evalOptFilter p (buildFilter none) = true ↔ p.tenant_id = some "global")
    ∧ (∀ f : FilterDict, f.tenant_id = none ∨ f.tenant_id = some "global" →
        buildFilter (some f) =
          some ⟨QCond.base (.matchStr "tenant_id" "global") :: optConds f⟩ ∧
        (∀ c : QCond, c ∈ optConds f ↔ condFromTruthySupplied f c) ∧
        (∀ p : Payload, evalOptFilter p (buildFilter (some f)) = true ↔
          (p.tenant_id = some "global" ∧ suppliedConstraints f p)))
    ∧ (∀ (f : FilterDict) (t : String), f.tenant_id = some t → t ≠ "global" →
        buildFilter (some f) =
          some ⟨QCond.shouldOr [.matchStr "tenant_id" "global", .matchStr "tenant_id" t] ::
            optConds f⟩ ∧
        (∀ c : QCond, c ∈ optConds f ↔ condFromTruthySupplied f c) ∧
        (∀ p : Payload, evalOptFilter p (buildFilter (some f)) = true ↔
          ((p.tenant_id = some "global" ∨ p.tenant_id = some t) ∧
            suppliedConstraints f p))) := by
  refine ⟨⟨rfl, ?_⟩, ?_, ?_⟩
  · intro p
    simp [evalOptFilter, buildFilter, evalQFilter, evalCond, evalCondB, payloadStr]
  · intro f hf
    have ht : tenantCond (f.tenant_id.getD "global") =
        QCond.base (.matchStr "tenant_id" "global") := by
      rcases hf with hf | hf <;> simp [hf, tenantCond]
    refine ⟨by rw [buildFilter_some, ht], mem_optConds_iff f, ?_⟩
    intro p
    rw [buildFilter_some, ht]
    simp only [evalOptFilter, evalQFilter, List.all_cons, Bool.and_eq_true]
    exact and_congr (by simp [evalCond, evalCondB, payloadStr]) (optConds_all_iff f p)
  · intro f t hft ht
    have htc : tenantCond (f.tenant_id.getD "global") =
        QCond.shouldOr [.matchStr "tenant_id" "global", .matchStr "tenant_id" t] := by
      simp [hft, tenantCond, ht]
    refine ⟨by rw [buildFilter_some, htc], mem_optConds_iff f, ?_⟩
    intro p
    rw [buildFilter_some, htc]
    simp only [evalOptFilter, evalQFilter, List.all_cons, Bool.and_eq_true]
    refine and_congr ?_ (optConds_all_iff f p)
    simp [evalCond, evalCondB, payloadStr]

/-- Witness for C1's amended theorem at a concrete filter
`{tenant: "acme", level: 1, provider: "x"}`: the level predicate IS included
in the built condition list, and a payload matching the filter satisfies
the tenant disjunction and the level bound extracted through the theorem. -/
theorem build_filter_conjoins_supplied_witness :
    (({ tenant_id := some "acme", level := some 1, provider := some "x" } :
        FilterDict).tenant_id = some "acme") ∧
    ("acme" ≠ "global") ∧
    QCond.base (.rangeLte "level" 1) ∈
      optConds { tenant_id := some "acme", level := some 1, provider := some "x" } ∧
    evalOptFilter { tenant_id := some "acme", level := some 0, provider := some "x" }
      (buildFilter
        (some { tenant_id := some "acme", level := some 1, provider := some "x" })) =
      true ∧
    (∃ x, ({ tenant_id := some "acme", level := some 0, provider := some "x" } :
        Payload).level = some x ∧ x ≤ 1) := by
  have h := build_filter_conjoins_supplied.2.2
    { tenant_id := some "acme", level := some 1, provider := some "x" } "acme" rfl (by decide)
  refine ⟨rfl, by decide, ?_, by decide, ?_⟩
  · exact (h.2.1 _).mpr (Or.inl ⟨1, rfl, rfl⟩)
  · exact ((h.2.2 _).mp (by decide)).2.1 1 rfl

/-- Counterexample to C1 as stated: `media_type` is supplied (value `""`) yet
its predicate is not conjoined — the built filter is exactly the tenant
disjunction with no media_type condition, and a payload whose media_type
differs from the supplied value still matches, while the claimed
`media_type = v` predicate is false of it. -/
theorem build_filter_drops_empty_media_type :
    buildFilter (some { tenant_id := some "acme", media_type := some "" }) =
      some ⟨[QCond.shouldOr [.matchStr "tenant_id" "global", .matchStr "tenant_id" "acme"]]⟩ ∧
    evalOptFilter { tenant_id := some "acme", media_type := some "video" }
      (buildFilter (some { tenant_id := some "acme", media_type := some "" })) = true ∧
    evalCondB { tenant_id := some "acme", media_type := some "video" }
      (.matchStr "media_type" "") = false := by
  refine ⟨by decide, by decide, by decide⟩

/-- C10: the public `/search` boundary cannot express a tenant.  The
`SearchFilter` dump never contains a `tenant_id` key, and for every request
(filters present or not) the predicate handed to the index only matches
payloads with `tenant_id = "global"`. -/
theorem search_endpoint_global_only :
    (∀ sf : SearchFilter, (searchFilterDump sf).tenant_id = none)
    ∧ (∀ (req : Option SearchFilter) (p : Payload),
        evalOptFilter p (buildFilter (searchFiltersDict req)) = true →
        p.tenant_id = some "global") := by
  refine ⟨fun _ => rfl, ?_⟩
  intro req p hp
  cases req with
  | none =>
    simp only [searchFiltersDict, evalOptFilter, buildFilter] at hp
    exact evalQFilter_global_head p [] hp
  | some sf =>
    have hb : buildFilter (searchFiltersDict (some sf)) =
        some ⟨QCond.base (.matchStr "tenant_id" "global") ::
          optConds (searchFilterDump sf)⟩ := by
      rw [searchFiltersDict, buildFilter_some]
      rfl
    rw [hb] at hp
    exact evalQFilter_global_head p _ hp

/-- Witness for C10: a concrete request with filters supplied, evaluated at a
global payload. -/
theorem search_endpoint_global_only_witness :
    evalOptFilter { tenant_id := some "global", level := some 1 }
        (buildFilter (searchFiltersDict (some { level := some 2 }))) = true ∧
    ({ tenant_id := some "global", level := some 1 } : Payload).tenant_id = some "global" := by
  refine ⟨by decide, ?_⟩
  exact search_endpoint_global_only.2 (some { level := some 2 })
    { tenant_id := some "global", level := some 1 } (by decide)

/-! ## Rerank stage (`src/services/rag/rerank.py`, `RerankService.rerank`)

A candidate document is a search-result dict.  Fields the rerank/search code
touches are modelled explicitly; `score` is the key the `/search` handler
overwrites after reranking.  Relevance and similarity scores are machine
floats that the code only compares and copies, so they are modelled by `ℚ`. -/

structure Doc where
  resource_id : String := ""
  title : Option String := none
  url : Option String := none
  description : Option String := none
  duration_min : Option Int := none
  level : Option Int := none
  skills : List String := []
  media_type : Option String := none
  score : ℚ := 0
deriving DecidableEq

/-- The text built per document: `doc.get("title", "")`, with the description
appended iff `doc.get("description")` is truthy (present and non-empty). -/
def docText (d : Doc) : String :=
  let t := d.title.getD ""
  match d.description with
  | some desc => if desc = "" then t else t ++ " " ++ desc
  | none => t

/-- Insert a pair into a list already sorted by score descending, before the
first element whose score does not exceed it.  Used to model Python's
`list.sort(key=lambda x: x[1], reverse=True)`, which is a stable descending
sort; the characterisation lemmas below (permutation, sortedness, stability)
pin that behaviour down uniquely. -/
def insertDesc {α : Type} (x : α × ℚ) : List (α × ℚ) → List (α × ℚ)
  | [] => [x]
  | y :: ys => if y.2 ≤ x.2 then x :: y :: ys else y :: insertDesc x ys

def sortDesc {α : Type} : List (α × ℚ) → List (α × ℚ)
  | [] => []
  | x :: xs => insertDesc x (sortDesc xs)

/-- `RerankService.rerank`.  The scoring backend (Deep Infra API or the local
cross-encoder) is an oracle `scoreFn` from the query and the document texts
to one score per text. -/
def rerank (scoreFn : String → List String → List ℚ) (query : String)
    (documents : List Doc) (top_n : ℕ) : List Doc × List ℚ :=
  if documents.isEmpty then ([], [])
  else
    let doc_texts := documents.map docText
    let scores := scoreFn query doc_texts
    let scored_docs := documents.zip scores
    let sorted := sortDesc scored_docs
    ((sorted.take top_n).map Prod.fst, (sorted.take top_n).map Prod.snd)

/-- The score-update loop in `search_resources`
(`for i, result in enumerate(reranked_results): result["score"] = scores[i]`). -/
def updateScores (reranked : List Doc) (scores : List ℚ) : List Doc :=
  List.zipWith (fun d s => { d with score := s }) reranked scores

/-- The rerank branch of the `/search` handler (`src/services/rag/main.py`,
`search_resources`, with `request.rerank = True`): rerank the search results
truncated to `min(rerank_top_n, len(results))` and overwrite each returned
result's score. -/
def searchRerankBranch (scoreFn : String → List String → List ℚ) (query : String)
    (results : List Doc) (rerank_top_n : ℕ) : List Doc :=
  if 0 < results.length then
    let pr := rerank scoreFn query results (min rerank_top_n results.length)
    updateScores pr.1 pr.2
  else results

/-- Tag each pair with its original position (starting at `i`), so that the
stability of the sort can be stated. -/
def tagFrom {α : Type} (i : ℕ) : List (α × ℚ) → List ((ℕ × α) × ℚ)
  | [] => []
  | p :: ps => ((i, p.1), p.2) :: tagFrom (i + 1) ps

/-! ### Sorting lemmas -/

theorem mem_insertDesc {α : Type} (x a : α × ℚ) (l : List (α × ℚ)) :
    a ∈ insertDesc x l ↔ a = x ∨ a ∈ l := by
  induction l with
  | nil => simp [insertDesc]
  | cons y ys ih =>
    by_cases h : y.2 ≤ x.2
    · simp [insertDesc, h]
    · simp only [insertDesc, if_neg h, List.mem_cons, ih]
      tauto

theorem mem_sortDesc {α : Type} (a : α × ℚ) (l : List (α × ℚ)) :
    a ∈ sortDesc l ↔ a ∈ l := by
  induction l with
  | nil => simp [sortDesc]
  | cons x xs ih => simp [sortDesc, mem_insertDesc, ih]

theorem length_insertDesc {α : Type} (x : α × ℚ) (l : List (α × ℚ)) :
    (insertDesc x l).length = l.length + 1 := by
  induction l with
  | nil => rfl
  | cons y ys ih =>
    by_cases h : y.2 ≤ x.2 <;> simp [insertDesc, h, ih]

theorem length_sortDesc {α : Type} (l : List (α × ℚ)) :
    (sortDesc l).length = l.length := by
  induction l with
  | nil => rfl
  | cons x xs ih => simp [sortDesc, length_insertDesc, ih]

theorem pairwise_insertDesc {α : Type} (x : α × ℚ) (l : List (α × ℚ))
    (h : l.Pairwise (fun a b => b.2 ≤ a.2)) :
    (insertDesc x l).Pairwise (fun a b => b.2 ≤ a.2) := by
  induction l with
  | nil => simp [insertDesc]
  | cons y ys ih =>
    rcases List.pairwise_cons.1 h with ⟨hy, hys⟩
    by_cases hc : y.2 ≤ x.2
    · rw [insertDesc, if_pos hc]
      refine List.pairwise_cons.2 ⟨?_, h⟩
      intro b hb
      rcases List.mem_cons.1 hb with rfl | hb
      · exact hc
      · exact le_trans (hy b hb) hc
    · rw [insertDesc, if_neg hc]
      refine List.pairwise_cons.2 ⟨?_, ih hys⟩
      intro b hb
      rcases (mem_insertDesc x b ys).1 hb with rfl | hb
      · exact le_of_lt (lt_of_not_le hc)
      · exact hy b hb

theorem sortDesc_sorted {α : Type} (l : List (α × ℚ)) :
    (sortDesc l).Pairwise (fun a b => b.2 ≤ a.2) := by
  induction l with
  | nil => simp [sortDesc]
  | cons x xs ih => exact pairwise_insertDesc x (sortDesc xs) ih

/-- Stability of the insertion: if `x`'s tag is below every tag in `l` and
`l` is sorted and stable, then inserting `x` keeps the list stable (ties are
ordered by tag). -/
theorem insertDesc_stable {α : Type} (x : (ℕ × α) × ℚ) (l : List ((ℕ × α) × ℚ))
    (hs : l.Pairwise (fun a b => b.2 ≤ a.2))
    (hst : l.Pairwise (fun a b => a.2 = b.2 → a.1.1 < b.1.1))
    (hx : ∀ y ∈ l, x.1.1 < y.1.1) :
    (insertDesc x l).Pairwise (fun a b => a.2 = b.2 → a.1.1 < b.1.1) := by
  induction l with
  | nil => simp [insertDesc]
  | cons y ys ih =>
    rcases List.pairwise_cons.1 hs with ⟨hsy, hsys⟩
    rcases List.pairwise_cons.1 hst with ⟨hsty, hstys⟩
    by_cases hc : y.2 ≤ x.2
    · rw [insertDesc, if_pos hc]
      refine List.pairwise_cons.2 ⟨?_, hst⟩
      intro b hb _
      exact hx b hb
    · rw [insertDesc, if_neg hc]
      refine List.pairwise_cons.2 ⟨?_, ih hsys hstys (fun z hz => hx z (List.mem_cons_of_mem y hz))⟩
      intro b hb heq
      rcases (mem_insertDesc x b ys).1 hb with rfl | hb
      · exact absurd (le_of_eq heq) hc
      · exact hsty b hb heq

theorem tagFrom_tags_lt {α : Type} (i : ℕ) (l : List (α × ℚ)) :
    ∀ y ∈ tagFrom i l, i ≤ y.1.1 := by
  induction l generalizing i with
  | nil => simp [tagFrom]
  | cons p ps ih =>
    intro y hy
    rcases List.mem_cons.1 hy with rfl | hy
    · exact le_refl i
    · exact le_trans (Nat.le_succ i) (ih (i + 1) y hy)

theorem tagFrom_pairwise {α : Type} (i : ℕ) (l : List (α × ℚ)) :
    (tagFrom i l).Pairwise (fun a b => a.1.1 < b.1.1) := by
  induction l generalizing i with
  | nil => simp [tagFrom]
  | cons p ps ih =>
    refine List.pairwise_cons.2 ⟨?_, ih (i + 1)⟩
    intro b hb
    exact lt_of_lt_of_le (Nat.lt_succ_self i) (tagFrom_tags_lt (i + 1) ps b hb)

theorem sortDesc_stable {α : Type} (l : List ((ℕ × α) × ℚ))
    (h : l.Pairwise (fun a b => a.1.1 < b.1.1)) :
    (sortDesc l).Pairwise (fun a b => a.2 = b.2 → a.1.1 < b.1.1) := by
  induction l with
  | nil => simp [sortDesc]
  | cons x xs ih =>
    rcases List.pairwise_cons.1 h with ⟨hx, hxs⟩
    exact insertDesc_stable x (sortDesc xs) (sortDesc_sorted xs) (ih hxs)
      (fun y hy => hx y ((mem_sortDesc y xs).1 hy))

/-- `insertDesc` only inspects the score component, so it commutes with
relabelling the data component. -/
theorem insertDesc_map {α β : Type} (f : α → β) (x : α × ℚ) (l : List (α × ℚ)) :
    insertDesc (f x.1, x.2) (l.map (fun p => (f p.1, p.2))) =
      (insertDesc x l).map (fun p => (f p.1, p.2)) := by
  induction l with
  | nil => rfl
  | cons y ys ih =>
    by_cases h : y.2 ≤ x.2
    · simp [insertDesc, h]
    · simp [insertDesc, h, ih]

theorem sortDesc_map {α β : Type} (f : α → β) (l : List (α × ℚ)) :
    sortDesc (l.map (fun p => (f p.1, p.2))) = (sortDesc l).map (fun p => (f p.1, p.2)) := by
  induction l with
  | nil => rfl
  | cons x xs ih => simp only [List.map_cons, sortDesc, ih, insertDesc_map]

theorem tagFrom_untag {α : Type} (i : ℕ) (l : List (α × ℚ)) :
    (tagFrom i l).map (fun p => (p.1.2, p.2)) = l := by
  induction l generalizing i with
  | nil => rfl
  | cons p ps ih => simp [tagFrom, ih]

/-- Untagging the sorted tagged list gives the sorted untagged list. -/
theorem sortDesc_tagFrom_untag {α : Type} (l : List (α × ℚ)) :
    (sortDesc (tagFrom 0 l)).map (fun p => (p.1.2, p.2)) = sortDesc l := by
  have h := sortDesc_map (α := ℕ × α) (β := α) Prod.snd (tagFrom 0 l)
  calc (sortDesc (tagFrom 0 l)).map (fun p => (p.1.2, p.2))
      = sortDesc ((tagFrom 0 l).map (fun p => (p.1.2, p.2))) := h.symm
    _ = sortDesc l := by rw [tagFrom_untag]

theorem mem_zip_exists_index {α β : Type} (a : α) (b : β) :
    ∀ (l₁ : List α) (l₂ : List β), (a, b) ∈ l₁.zip l₂ →
      ∃ j : ℕ, l₁[j]? = some a ∧ l₂[j]? = some b := by
  intro l₁
  induction l₁ with
  | nil => intro l₂ h; simp at h
  | cons x xs ih =>
    intro l₂ h
    cases l₂ with
    | nil => simp at h
    | cons y ys =>
      rcases List.mem_cons.1 h with heq | htail
      · rcases Prod.mk.injEq .. ▸ heq with ⟨rfl, rfl⟩
        exact ⟨0, by simp⟩
      · rcases ih ys htail with ⟨j, h₁, h₂⟩
        exact ⟨j + 1, by simpa using h₁, by simpa using h₂⟩

theorem zipWith_update_fst_snd (l : List (Doc × ℚ)) :
    List.zipWith (fun d s => { d with score := s }) (l.map Prod.fst) (l.map Prod.snd) =
      l.map (fun p => { p.1 with score := p.2 }) := by
  induction l with
  | nil => rfl
  | cons p ps ih => simp [ih]

/-- C3: `rerank` returns exactly `min(top_n, len(candidates))` documents and
as many scores, provided the scoring backend returns one score per
candidate; the empty candidate list is a no-op returning two empty lists;
and every returned document is one of the input candidates (never a
synthetic pad). -/
theorem rerank_topn_bound (scoreFn : String → List String → List ℚ) (q : String)
    (docs : List Doc) (top_n : ℕ)
    (hlen : (scoreFn q (docs.map docText)).length = docs.length) :
    (rerank scoreFn q docs top_n).1.length = min top_n docs.length
    ∧ (rerank scoreFn q docs top_n).2.length = (rerank scoreFn q docs top_n).1.length
    ∧ (∀ d ∈ (rerank scoreFn q docs top_n).1, d ∈ docs)
    ∧ (∀ (q2 : String) (n2 : ℕ), rerank scoreFn q2 [] n2 = ([], [])) := by
  by_cases hd : docs.isEmpty
  · have hnil : docs = [] := List.isEmpty_iff.1 hd
    subst hnil
    refine ⟨by simp [rerank], by simp [rerank], by simp [rerank], fun _ _ => rfl⟩
  · have hlen' : (sortDesc (docs.zip (scoreFn q (docs.map docText)))).length = docs.length := by
      rw [length_sortDesc, List.length_zip, hlen, min_self]
    refine ⟨?_, ?_, ?_, fun _ _ => rfl⟩
    · simp only [rerank, if_neg hd, List.length_map, List.length_take, hlen']
    · simp only [rerank, if_neg hd, List.length_map]
    · intro d hdm
      simp only [rerank, if_neg hd, List.mem_map] at hdm
      rcases hdm with ⟨p, hp, rfl⟩
      have hp' : p ∈ docs.zip (scoreFn q (docs.map docText)) :=
        (mem_sortDesc p _).1 (List.take_subset top_n _ hp)
      exact (List.of_mem_zip hp').1

/-- Witness for C3: two concrete candidates, a backend returning one zero
score per text, `top_n = 1`. -/
theorem rerank_topn_bound_witness :
    (((fun (_ : String) (ts : List String) => ts.map (fun _ => (0 : ℚ)))) "q"
        (([{ resource_id := "r1" }, { resource_id := "r2" }] : List Doc).map docText)).length =
      ([{ resource_id := "r1" }, { resource_id := "r2" }] : List Doc).length ∧
    (rerank (fun _ ts => ts.map (fun _ => (0 : ℚ))) "q"
        [{ resource_id := "r1" }, { resource_id := "r2" }] 1).1.length =
      min 1 ([{ resource_id := "r1" }, { resource_id := "r2" }] : List Doc).length :=
  ⟨by simp, (rerank_topn_bound (fun _ ts => ts.map (fun _ => (0 : ℚ))) "q"
    [{ resource_id := "r1" }, { resource_id := "r2" }] 1 (by simp)).1⟩

/-- C6: `rerank` orders the candidate/score pairs by score descending, and
ties keep the original (pre-rerank) relative order.  Stated on the pairs
tagged with their original positions: the sorted tagged list is pairwise
non-increasing in score, pairwise increasing in original position on equal
scores, and the rerank output is exactly its truncation. -/
theorem rerank_sorted_stable (scoreFn : String → List String → List ℚ) (q : String)
    (docs : List Doc) (top_n : ℕ) :
    (sortDesc (tagFrom 0 (docs.zip (scoreFn q (docs.map docText))))).Pairwise
        (fun a b => b.2 ≤ a.2)
    ∧ (sortDesc (tagFrom 0 (docs.zip (scoreFn q (docs.map docText))))).Pairwise
        (fun a b => a.2 = b.2 → a.1.1 < b.1.1)
    ∧ (rerank scoreFn q docs top_n).1 =
        (((sortDesc (tagFrom 0 (docs.zip (scoreFn q (docs.map docText))))).map
          (fun p => p.1.2)).take top_n)
    ∧ (rerank scoreFn q docs top_n).2 =
        (((sortDesc (tagFrom 0 (docs.zip (scoreFn q (docs.map docText))))).map
          (fun p => p.2)).take top_n) := by
  refine ⟨sortDesc_sorted _, sortDesc_stable _ (tagFrom_pairwise 0 _), ?_, ?_⟩
  · by_cases hd : docs.isEmpty
    · have hnil : docs = [] := List.isEmpty_iff.1 hd
      subst hnil
      simp [rerank, tagFrom, sortDesc]
    · simp only [rerank, if_neg hd]
      rw [← sortDesc_tagFrom_untag, ← List.map_take, ← List.map_take, List.map_map]
      rfl
  · by_cases hd : docs.isEmpty
    · have hnil : docs = [] := List.isEmpty_iff.1 hd
      subst hnil
      simp [rerank, tagFrom, sortDesc]
    · simp only [rerank, if_neg hd]
      rw [← sortDesc_tagFrom_untag, ← List.map_take, ← List.map_take, List.map_map]
      rfl

/-- C4: after the `/search` rerank branch, every returned candidate is an
original candidate whose `score` field has been overwritten with the
relevance score the reranking provider produced for that same candidate
(index `j` pairs the candidate with its provider score); the prior
similarity score is gone. -/
theorem rerank_score_overwrite (scoreFn : String → List String → List ℚ) (q : String)
    (results : List Doc) (rerank_top_n : ℕ) :
    ∀ d ∈ searchRerankBranch scoreFn q results rerank_top_n,
      ∃ (j : ℕ) (dj : Doc) (s : ℚ), results[j]? = some dj ∧
        (scoreFn q (results.map docText))[j]? = some s ∧
        d = { dj with score := s } := by
  intro d hd
  by_cases hp : 0 < results.length
  · have hne : ¬ results.isEmpty := by
      cases results with
      | nil => simp at hp
      | cons x xs => simp
    simp only [searchRerankBranch, if_pos hp, rerank, if_neg hne, updateScores] at hd
    rw [zipWith_update_fst_snd] at hd
    rcases List.mem_map.1 hd with ⟨p, hpmem, rfl⟩
    have hzip : p ∈ results.zip (scoreFn q (results.map docText)) :=
      (mem_sortDesc p _).1 (List.take_subset _ _ hpmem)
    rcases mem_zip_exists_index p.1 p.2 results (scoreFn q (results.map docText)) hzip with
      ⟨j, h₁, h₂⟩
    exact ⟨j, p.1, p.2, h₁, h₂, rfl⟩
  · have hnil : results = [] := List.eq_nil_of_length_eq_zero (by omega)
    subst hnil
    simp [searchRerankBranch] at hd

/-- Witness for C4: one concrete candidate with similarity score 5, a backend
scoring it 9; the returned candidate carries score 9. -/
theorem rerank_score_overwrite_witness :
    ∃ (j : ℕ) (dj : Doc) (s : ℚ),
      ([{ resource_id := "a", score := 5 }] : List Doc)[j]? = some dj ∧
      ((fun (_ : String) (ts : List String) => ts.map (fun _ => (9 : ℚ))) "q"
        (([{ resource_id := "a", score := 5 }] : List Doc).map docText))[j]? = some s ∧
      ({ resource_id := "a", score := 9 } : Doc) = { dj with score := s } :=
  rerank_score_overwrite (fun _ ts => ts.map (fun _ => (9 : ℚ))) "q"
    [{ resource_id := "a", score := 5 }] 1
    { resource_id := "a", score := 9 } (by decide)


/-! ## Embedding service (`src/services/rag/embeddings.py`,
`EmbeddingService.generate_embeddings`)

The backend (Deep Infra call or local model) is an oracle `encode`; the
repository's own logic is the instruction prefix applied before encoding. -/

/-- The prefixed texts handed to the backend:
`prefix = "query: " if instruction == "query" else "passage: "`. -/
def prefixedTexts (texts : List String) (instruction : String) : List String :=
  let prefx := if instruction = "query" then "query: " else "passage: "
  texts.map (fun t => prefx ++ t)

/-- `generate_embeddings`: prefix, then encode. -/
def generateEmbeddings (encode : List String → List (List ℚ))
    (texts : List String) (instruction : String) : List (List ℚ) :=
  encode (prefixedTexts texts instruction)

/-- The default value of the `instruction` parameter in the source
(`instruction: str = "passage"`, also used by `generate_single_embedding`). -/
def defaultInstruction : String := "passage"

/-- C8: exactly one fixed prefix is prepended to each text before encoding:
`"query: "` when the instruction is `"query"`, `"passage: "` otherwise
(including the default instruction); the encoded input is always the prefix
concatenated with the caller's text, one prefixed text per input text. -/
theorem embedding_prefix_contract (encode : List String → List (List ℚ))
    (texts : List String) (instruction : String) :
    generateEmbeddings encode texts instruction = encode (prefixedTexts texts instruction)
    ∧ (prefixedTexts texts instruction).length = texts.length
    ∧ (∀ i : ℕ, ∀ hi : i < texts.length,
        (prefixedTexts texts instruction).get ⟨i, by simpa [prefixedTexts] using hi⟩ =
          (if instruction = "query" then "query: " else "passage: ") ++
            texts.get ⟨i, hi⟩)
    ∧ (instruction = "query" →
        prefixedTexts texts instruction = texts.map (fun t => "query: " ++ t))
    ∧ (instruction ≠ "query" →
        prefixedTexts texts instruction = texts.map (fun t => "passage: " ++ t))
    ∧ defaultInstruction ≠ "query" := by
  refine ⟨rfl, by simp [prefixedTexts], ?_, ?_, ?_, by decide⟩
  · intro i hi
    simp [prefixedTexts]
  · intro h
    simp [prefixedTexts, h]
  · intro h
    simp [prefixedTexts, h]

/-- Witness for C8: the indexed conjunct and the two conditional conjuncts at
concrete inputs. -/
theorem embedding_prefix_contract_witness :
    ((0 : ℕ) < (["hello"] : List String).length) ∧
    (prefixedTexts ["hello"] "query").get ⟨0, by simp [prefixedTexts]⟩ =
      (if "query" = "query" then "query: " else "passage: ") ++
        (["hello"] : List String).get ⟨0, by simp⟩ ∧
    prefixedTexts ["hello"] "passage" = ["hello"].map (fun t => "passage: " ++ t) := by
  refine ⟨by simp, ?_, ?_⟩
  · exact (embedding_prefix_contract (fun ts => ts.map (fun _ => [])) ["hello"] "query").2.2.1
      0 (by simp)
  · exact (embedding_prefix_contract (fun ts => ts.map (fun _ => [])) ["hello"] "passage").2.2.2.2.1
      (by decide)

/-! ## Deep Infra HTTP client (`src/services/rag/deepinfra_client.py`)

The HTTP exchange is an oracle outcome.  Error values model the Python
exception that propagates out of the `try` block (every handler logs and
re-raises). -/

/-- Python exception values relevant to the embedded code paths. -/
inductive PyErr where
  | jsonDecodeError (msg : String)
  | validationError (msg : String)
  | valueError (msg : String)
  | typeError (msg : String)
  | keyError (key : String)
  | timeoutError (msg : String)
  | httpStatusError (code : ℕ) (body : String)
  | apiError (msg : String)
  | genericError (msg : String)
deriving DecidableEq

/-- A minimal JSON value as produced by `response.json()`. -/
inductive Json where
  | null
  | bool (b : Bool)
  | num (q : ℚ)
  | str (s : String)
  | arr (items : List Json)
  | obj (fields : List (String × Json))

/-- Outcome of one `httpx` POST as observed inside the `try` block. -/
inductive HttpOutcome where
  | timeout (msg : String)
  | statusError (code : ℕ) (body : String)
  | okBadBody (msg : String)
  | okJson (body : Json)

/-- Lookup in a JSON object; later duplicate keys win, as in a Python dict
built from JSON. -/
def lookupJson (fields : List (String × Json)) (k : String) : Option Json :=
  fields.foldl (fun acc kv => if kv.1 = k then some kv.2 else acc) none

/-- Python `float(s)` on a JSON-decoded value.  Numbers and booleans convert;
`None`, lists and dicts raise `TypeError`.  (Numeric strings, which Python
would convert, do not occur in reranker responses and are not modelled:
strings are mapped to the `ValueError` that `float` raises on non-numeric
strings.) -/
def pyFloat : Json → Except PyErr ℚ
  | .num q => .ok q
  | .bool b => .ok (if b then 1 else 0)
  | .str s => .error (.valueError ("could not convert string to float: " ++ s))
  | .null => .error (.typeError "float() argument must not be None")
  | .arr _ => .error (.typeError "float() argument must not be a list")
  | .obj _ => .error (.typeError "float() argument must not be a dict")

def pyFloatList : List Json → Except PyErr (List ℚ)
  | [] => .ok []
  | j :: js => do
    let q ← pyFloat j
    let qs ← pyFloatList js
    .ok (q :: qs)

/-- Python `"scores" in data` for a JSON-decoded `data`: key test on dicts,
membership on lists, substring test on strings, `TypeError` otherwise. -/
def pyContainsScores : Json → Except PyErr Bool
  | .obj fields => .ok (lookupJson fields "scores").isSome
  | .arr items => .ok (items.any (fun j => match j with | .str s => s = "scores" | _ => false))
  | .str s => .ok (decide ((s.splitOn "scores").length ≠ 1))
  | _ => .error (.typeError "argument of type is not iterable")

/-- `DeepInfraClient.generate_embeddings_sync`: transport failures and any
other exception inside the `try` (body not JSON, `data["embeddings"]`
raising `KeyError` or `TypeError`) are logged and re-raised; a present
`embeddings` value is returned as-is. -/
def generateEmbeddingsSync (outcome : HttpOutcome) : Except PyErr Json :=
  match outcome with
  | .timeout m => .error (.timeoutError m)
  | .statusError c b => .error (.httpStatusError c b)
  | .okBadBody m => .error (.jsonDecodeError m)
  | .okJson data =>
    match data with
    | .obj fields =>
      match lookupJson fields "embeddings" with
      | some v => .ok v
      | none => .error (.keyError "embeddings")
    | _ => .error (.typeError "indices must be integers")

/-- `DeepInfraClient.rerank_sync`: transport failures are re-raised; on a
successful response, `if "scores" in data` converts each score with
`float`, otherwise the function logs a warning and returns
`[0.0] * len(documents)`. -/
def rerankSync (outcome : HttpOutcome) (documents : List String) : Except PyErr (List ℚ) :=
  match outcome with
  | .timeout m => .error (.timeoutError m)
  | .statusError c b => .error (.httpStatusError c b)
  | .okBadBody m => .error (.jsonDecodeError m)
  | .okJson data =>
    match pyContainsScores data with
    | .error e => .error e
    | .ok true =>
      match data with
      | .obj fields =>
        match lookupJson fields "scores" with
        | some (.arr items) => pyFloatList items
        | some _ => .error (.typeError "scores value is not iterable")
        | none => .error (.keyError "scores")
      | _ => .error (.typeError "indices must be integers")
    | .ok false => .ok (List.replicate documents.length 0)


/-- C9 (amended): the provider clients propagate typed failures for every
transport failure (timeout, HTTP error status, undecodable body) and for a
missing `embeddings` key, and never fabricate an embeddings result — but
`rerank_sync` does NOT propagate a failure for a well-formed JSON response
lacking a `scores` key: it fabricates a success of `0.0` scores, one per
document. -/
theorem deepinfra_error_propagation :
    (∀ m, generateEmbeddingsSync (.timeout m) = .error (.timeoutError m))
    ∧ (∀ c b, generateEmbeddingsSync (.statusError c b) = .error (.httpStatusError c b))
    ∧ (∀ m, generateEmbeddingsSync (.okBadBody m) = .error (.jsonDecodeError m))
    ∧ (∀ fields, lookupJson fields "embeddings" = none →
        generateEmbeddingsSync (.okJson (.obj fields)) = .error (.keyError "embeddings"))
    ∧ (∀ m docs, rerankSync (.timeout m) docs = .error (.timeoutError m))
    ∧ (∀ c b docs, rerankSync (.statusError c b) docs = .error (.httpStatusError c b))
    ∧ (∀ m docs, rerankSync (.okBadBody m) docs = .error (.jsonDecodeError m))
    ∧ (∀ fields docs, lookupJson fields "scores" = none →
        rerankSync (.okJson (.obj fields)) docs = .ok (List.replicate docs.length 0)) := by
  refine ⟨fun _ => rfl, fun _ _ => rfl, fun _ => rfl, ?_, fun _ _ => rfl,
    fun _ _ _ => rfl, fun _ _ => rfl, ?_⟩
  · intro fields h
    simp [generateEmbeddingsSync, h]
  · intro fields docs h
    simp [rerankSync, pyContainsScores, h]

/-- Witness for C9 (amended): concrete instances of the hypothesised
conjuncts — a response without an `embeddings` key propagates a `KeyError`,
and a rerank response without a `scores` key yields the fabricated zeros. -/
theorem deepinfra_error_propagation_witness :
    (lookupJson [("status", Json.str "done")] "embeddings" = none ∧
      generateEmbeddingsSync (.okJson (.obj [("status", Json.str "done")])) =
        .error (.keyError "embeddings")) ∧
    (lookupJson [("status", Json.str "done")] "scores" = none ∧
      rerankSync (.okJson (.obj [("status", Json.str "done")])) ["a", "b"] =
        .ok (List.replicate (["a", "b"] : List String).length 0)) := by
  refine ⟨⟨rfl, ?_⟩, ⟨rfl, ?_⟩⟩
  · exact deepinfra_error_propagation.2.2.2.1 [("status", Json.str "done")] rfl
  · exact deepinfra_error_propagation.2.2.2.2.2.2.2 [("status", Json.str "done")] ["a", "b"] rfl

/-- Counterexample to C9 as stated: a rerank response that cannot be
interpreted (its JSON has no `scores` key) does not propagate a typed
failure; `rerank_sync` returns the fabricated success `[0.0, 0.0]` for two
documents. -/
theorem deepinfra_rerank_fabricates_success :
    rerankSync (.okJson (.obj [("foo", Json.null)])) ["a", "b"] = .ok [0, 0] ∧
    ∀ e : PyErr, rerankSync (.okJson (.obj [("foo", Json.null)])) ["a", "b"] ≠ .error e := by
  refine ⟨rfl, ?_⟩
  intro e h
  simp [rerankSync, pyContainsScores, lookupJson] at h


/-! ## LLM structured-output clients
(`src/services/planner/llm_client.py`, `src/services/quiz/llm_client.py`)

The OpenAI-SDK chat call is an oracle `callModel` from the conversation to
either a transport error (any `openai` exception; none of those is a
`json.JSONDecodeError` or a pydantic `ValidationError`, so in the source
they always reach the generic handler) or the raw response text.
Extraction + `json.loads` + pydantic validation are an oracle
`parseValidate` returning the exception value it raises, since all three
are library calls; the quiz client's own empty-response guard is embedded
concretely below. -/

structure Msg where
  role : String
  content : String
deriving DecidableEq

/-- Exception classes caught by `except (json.JSONDecodeError, ValidationError)`
(the retried class).  A plain `ValueError` is a superclass of
`json.JSONDecodeError` and is NOT caught by it. -/
def isRetryableErr : PyErr → Bool
  | .jsonDecodeError _ => true
  | .validationError _ => true
  | _ => false

/-- The message text carried by the exception (`str(e)`). -/
def errMsg : PyErr → String
  | .jsonDecodeError m => m
  | .validationError m => m
  | .valueError m => m
  | .typeError m => m
  | .keyError k => k
  | .timeoutError m => m
  | .httpStatusError _ b => b
  | .apiError m => m
  | .genericError m => m

/-- The corrective user turn appended after a failed attempt. -/
def correctiveMsg (e : PyErr) : Msg :=
  ⟨"user", "The previous response was invalid. Error: " ++ errMsg e ++
    ". Please correct the JSON to match the schema exactly."⟩

/-! ### Validated plan schema (`LLMPlanResponse.model_dump()`) and enrichment -/

/-- A leaf resource reference.  After validation it carries exactly
`resource_id`, `why_included`, `order`; enrichment may add the other keys
(`Option` around the stored value = key present or not). -/
structure PlanResource where
  resource_id : String
  why_included : String
  order : Int
  title : Option (Option String) := none
  url : Option (Option String) := none
  duration_min : Option (Option Int) := none
  level : Option (Option Int) := none
  skills : Option (List String) := none
deriving DecidableEq

structure PlanMilestone where
  title : String
  description : String
  resources : List PlanResource
  skills_gained : List String
  order : Int
deriving DecidableEq

structure PlanData where
  milestones : List PlanMilestone
  reasoning : String
deriving DecidableEq

/-- `{r['resource_id']: r for r in available_resources}` followed by a key
lookup: the last candidate with the id wins. -/
def lookupResource (avail : List Doc) (id : String) : Option Doc :=
  avail.foldl (fun acc r => if r.resource_id = id then some r else acc) none

/-- One reference enriched by `_enrich_plan_data`.  Candidate dicts come from
the RAG `/search` response (`ResourceResult`), where every key the overlay
reads is present, so `full_resource.get('duration_min', 0)`,
`.get('level')` and `.get('skills', [])` return the stored value and the
defaults are never taken. -/
def enrichResource (avail : List Doc) (r : PlanResource) : PlanResource :=
  match lookupResource avail r.resource_id with
  | some fr =>
    { r with
      title := some fr.title
      url := some fr.url
      duration_min := some fr.duration_min
      level := some fr.level
      skills := some fr.skills }
  | none => r

/-- `LLMClient._enrich_plan_data`. -/
def enrichPlanData (plan : PlanData) (avail : List Doc) : PlanData :=
  { plan with
    milestones := plan.milestones.map
      (fun m => { m with resources := m.resources.map (enrichResource avail) }) }

/-! ### The retry loops -/

/-- The `for attempt in range(max_retries)` loop of
`LLMClient.generate_plan`, with the remaining attempt budget as fuel,
threading the conversation, `last_error`, and the number of model calls
made.  After the loop: `raise last_error` if set, else a generic failure. -/
def planAttempts (callModel : List Msg → Except String String)
    (parseValidate : String → Except PyErr PlanData) (avail : List Doc) :
    ℕ → List Msg → Option PyErr → ℕ → Except PyErr PlanData × ℕ
  | 0, _, lastError, calls =>
    match lastError with
    | some e => (Except.error e, calls)
    | none => (Except.error (PyErr.genericError "Failed to generate plan"), calls)
  | n + 1, messages, _, calls =>
    match callModel messages with
    | .error te => (Except.error (PyErr.apiError te), calls + 1)
    | .ok planText =>
      match parseValidate planText with
      | .ok plan => (Except.ok (enrichPlanData plan avail), calls + 1)
      | .error e =>
        if isRetryableErr e then
          planAttempts callModel parseValidate avail n
            (messages ++ [⟨"assistant", planText⟩, correctiveMsg e]) (some e) (calls + 1)
        else (Except.error e, calls + 1)

def generatePlanWith (maxRetries : ℕ) (callModel : List Msg → Except String String)
    (parseValidate : String → Except PyErr PlanData) (avail : List Doc)
    (initialMessages : List Msg) : Except PyErr PlanData × ℕ :=
  planAttempts callModel parseValidate avail maxRetries initialMessages none 0

/-- `generate_plan` fixes `max_retries = 3`. -/
def generatePlan (callModel : List Msg → Except String String)
    (parseValidate : String → Except PyErr PlanData) (avail : List Doc)
    (initialMessages : List Msg) : Except PyErr PlanData × ℕ :=
  generatePlanWith 3 callModel parseValidate avail initialMessages

/-! ### Quiz client -/

structure QuizOption where
  id : String
  text : String
deriving DecidableEq

structure QuizQuestion where
  question_text : String
  options : List QuizOption
  correct_option : String
  explanation : String
  source_resource_id : String
  citation : String
deriving DecidableEq

/-- The retry loop of `LLMClient.generate_quiz`.  It differs from the plan
loop in its success value (the validated question list) and its fallthrough
when the loop ends with no recorded error (`return []`). -/
def quizAttempts (callModel : List Msg → Except String String)
    (parseValidate : String → Except PyErr (List QuizQuestion)) :
    ℕ → List Msg → Option PyErr → ℕ → Except PyErr (List QuizQuestion) × ℕ
  | 0, _, lastError, calls =>
    match lastError with
    | some e => (Except.error e, calls)
    | none => (Except.ok [], calls)
  | n + 1, messages, _, calls =>
    match callModel messages with
    | .error te => (Except.error (PyErr.apiError te), calls + 1)
    | .ok quizText =>
      match parseValidate quizText with
      | .ok qs => (Except.ok qs, calls + 1)
      | .error e =>
        if isRetryableErr e then
          quizAttempts callModel parseValidate n
            (messages ++ [⟨"assistant", quizText⟩, correctiveMsg e]) (some e) (calls + 1)
        else (Except.error e, calls + 1)

def generateQuizWith (maxRetries : ℕ) (callModel : List Msg → Except String String)
    (parseValidate : String → Except PyErr (List QuizQuestion))
    (initialMessages : List Msg) : Except PyErr (List QuizQuestion) × ℕ :=
  quizAttempts callModel parseValidate maxRetries initialMessages none 0

/-- `generate_quiz` fixes `max_retries = 3`. -/
def generateQuiz (callModel : List Msg → Except String String)
    (parseValidate : String → Except PyErr (List QuizQuestion))
    (initialMessages : List Msg) : Except PyErr (List QuizQuestion) × ℕ :=
  generateQuizWith 3 callModel parseValidate initialMessages

/-- The quiz client's `_parse_and_validate_response` up to its own guard:
`if not response_text or not response_text.strip(): raise ValueError(...)`;
extraction, `json.loads` and pydantic validation are the oracle `rest`. -/
def parseAndValidateQuizResponse (rest : String → Except PyErr (List QuizQuestion))
    (response_text : String) : Except PyErr (List QuizQuestion) :=
  if response_text = "" || response_text.trim = "" then
    Except.error (PyErr.valueError "Empty response from LLM")
  else rest response_text


/-! ### Retry-loop lemmas -/

theorem planAttempts_calls_le (callModel : List Msg → Except String String)
    (parseValidate : String → Except PyErr PlanData) (avail : List Doc) :
    ∀ (n : ℕ) (msgs : List Msg) (le : Option PyErr) (c : ℕ),
      (planAttempts callModel parseValidate avail n msgs le c).2 ≤ c + n := by
  intro n
  induction n with
  | zero =>
    intro msgs le c
    cases le <;> simp [planAttempts]
  | succ n ih =>
    intro msgs le c
    rcases hcall : callModel msgs with te | t
    · simp only [planAttempts, hcall]
      omega
    · rcases hparse : parseValidate t with e | plan
      · by_cases hr : isRetryableErr e = true
        · simp only [planAttempts, hcall, hparse, hr, if_true]
          have := ih (msgs ++ [⟨"assistant", t⟩, correctiveMsg e]) (some e) (c + 1)
          omega
        · have hstep : planAttempts callModel parseValidate avail (n + 1) msgs le c =
              (Except.error e, c + 1) := by
            simp [planAttempts, hcall, hparse, hr]
          rw [hstep]
          omega
      · simp only [planAttempts, hcall, hparse]
        omega

theorem quizAttempts_calls_le (callModel : List Msg → Except String String)
    (parseValidate : String → Except PyErr (List QuizQuestion)) :
    ∀ (n : ℕ) (msgs : List Msg) (le : Option PyErr) (c : ℕ),
      (quizAttempts callModel parseValidate n msgs le c).2 ≤ c + n := by
  intro n
  induction n with
  | zero =>
    intro msgs le c
    cases le <;> simp [quizAttempts]
  | succ n ih =>
    intro msgs le c
    rcases hcall : callModel msgs with te | t
    · simp only [quizAttempts, hcall]
      omega
    · rcases hparse : parseValidate t with e | qs
      · by_cases hr : isRetryableErr e = true
        · simp only [quizAttempts, hcall, hparse, hr, if_true]
          have := ih (msgs ++ [⟨"assistant", t⟩, correctiveMsg e]) (some e) (c + 1)
          omega
        · have hstep : quizAttempts callModel parseValidate (n + 1) msgs le c =
              (Except.error e, c + 1) := by
            simp [quizAttempts, hcall, hparse, hr]
          rw [hstep]
          omega
      · simp only [quizAttempts, hcall, hparse]
        omega

theorem planAttempts_all_fail (callModel : List Msg → Except String String)
    (parseValidate : String → Except PyErr PlanData) (avail : List Doc)
    (hok : ∀ msgs, ∃ t, callModel msgs = Except.ok t)
    (hfail : ∀ t, ∃ e, parseValidate t = Except.error e ∧ isRetryableErr e = true) :
    ∀ (n : ℕ) (msgs : List Msg) (le : Option PyErr) (c : ℕ), 0 < n →
      ∃ e, planAttempts callModel parseValidate avail n msgs le c = (Except.error e, c + n) ∧
        isRetryableErr e = true ∧ ∃ t, parseValidate t = Except.error e := by
  intro n
  induction n with
  | zero => intro _ _ _ h; omega
  | succ n ih =>
    intro msgs le c _
    rcases hok msgs with ⟨t, hcall⟩
    rcases hfail t with ⟨e, hparse, hr⟩
    rcases Nat.eq_zero_or_pos n with rfl | hn
    · exact ⟨e, by simp [planAttempts, hcall, hparse, hr], hr, t, hparse⟩
    · rcases ih (msgs ++ [⟨"assistant", t⟩, correctiveMsg e]) (some e) (c + 1) hn with
        ⟨e2, heq, hr2, t2, hp2⟩
      refine ⟨e2, ?_, hr2, t2, hp2⟩
      rw [show c + (n + 1) = c + 1 + n by omega]
      simpa [planAttempts, hcall, hparse, hr] using heq

theorem quizAttempts_all_fail (callModel : List Msg → Except String String)
    (parseValidate : String → Except PyErr (List QuizQuestion))
    (hok : ∀ msgs, ∃ t, callModel msgs = Except.ok t)
    (hfail : ∀ t, ∃ e, parseValidate t = Except.error e ∧ isRetryableErr e = true) :
    ∀ (n : ℕ) (msgs : List Msg) (le : Option PyErr) (c : ℕ), 0 < n →
      ∃ e, quizAttempts callModel parseValidate n msgs le c = (Except.error e, c + n) ∧
        isRetryableErr e = true ∧ ∃ t, parseValidate t = Except.error e := by
  intro n
  induction n with
  | zero => intro _ _ _ h; omega
  | succ n ih =>
    intro msgs le c _
    rcases hok msgs with ⟨t, hcall⟩
    rcases hfail t with ⟨e, hparse, hr⟩
    rcases Nat.eq_zero_or_pos n with rfl | hn
    · exact ⟨e, by simp [quizAttempts, hcall, hparse, hr], hr, t, hparse⟩
    · rcases ih (msgs ++ [⟨"assistant", t⟩, correctiveMsg e]) (some e) (c + 1) hn with
        ⟨e2, heq, hr2, t2, hp2⟩
      refine ⟨e2, ?_, hr2, t2, hp2⟩
      rw [show c + (n + 1) = c + 1 + n by omega]
      simpa [quizAttempts, hcall, hparse, hr] using heq

theorem planAttempts_retryable_error_exhausts (callModel : List Msg → Except String String)
    (parseValidate : String → Except PyErr PlanData) (avail : List Doc) (e : PyErr) :
    ∀ (n : ℕ) (msgs : List Msg) (le : Option PyErr) (c : ℕ),
      (planAttempts callModel parseValidate avail n msgs le c).1 = Except.error e →
      isRetryableErr e = true →
      (planAttempts callModel parseValidate avail n msgs le c).2 = c + n := by
  intro n
  induction n with
  | zero =>
    intro msgs le c _ _
    cases le <;> simp [planAttempts]
  | succ n ih =>
    intro msgs le c herr hr
    rcases hcall : callModel msgs with te | t
    · rw [show (planAttempts callModel parseValidate avail (n+1) msgs le c) =
          (Except.error (PyErr.apiError te), c + 1) by simp [planAttempts, hcall]] at herr ⊢
      simp at herr
      rw [← herr] at hr
      simp [isRetryableErr] at hr
    · rcases hparse : parseValidate t with e2 | plan
      · by_cases hr2 : isRetryableErr e2 = true
        · have hstep : planAttempts callModel parseValidate avail (n+1) msgs le c =
              planAttempts callModel parseValidate avail n
                (msgs ++ [⟨"assistant", t⟩, correctiveMsg e2]) (some e2) (c + 1) := by
            simp [planAttempts, hcall, hparse, hr2]
          rw [hstep] at herr ⊢
          rw [ih _ _ _ herr hr]
          omega
        · have hstep : planAttempts callModel parseValidate avail (n+1) msgs le c =
              (Except.error e2, c + 1) := by
            simp [planAttempts, hcall, hparse, hr2]
          rw [hstep] at herr
          simp at herr
          subst herr
          exact absurd hr hr2
      · have hstep : planAttempts callModel parseValidate avail (n+1) msgs le c =
            (Except.ok (enrichPlanData plan avail), c + 1) := by
          simp [planAttempts, hcall, hparse]
        rw [hstep] at herr
        simp at herr

theorem quizAttempts_retryable_error_exhausts (callModel : List Msg → Except String String)
    (parseValidate : String → Except PyErr (List QuizQuestion)) (e : PyErr) :
    ∀ (n : ℕ) (msgs : List Msg) (le : Option PyErr) (c : ℕ),
      (quizAttempts callModel parseValidate n msgs le c).1 = Except.error e →
      isRetryableErr e = true →
      (quizAttempts callModel parseValidate n msgs le c).2 = c + n := by
  intro n
  induction n with
  | zero =>
    intro msgs le c _ _
    cases le <;> simp [quizAttempts]
  | succ n ih =>
    intro msgs le c herr hr
    rcases hcall : callModel msgs with te | t
    · rw [show (quizAttempts callModel parseValidate (n+1) msgs le c) =
          (Except.error (PyErr.apiError te), c + 1) by simp [quizAttempts, hcall]] at herr ⊢
      simp at herr
      rw [← herr] at hr
      simp [isRetryableErr] at hr
    · rcases hparse : parseValidate t with e2 | qs
      · by_cases hr2 : isRetryableErr e2 = true
        · have hstep : quizAttempts callModel parseValidate (n+1) msgs le c =
              quizAttempts callModel parseValidate n
                (msgs ++ [⟨"assistant", t⟩, correctiveMsg e2]) (some e2) (c + 1) := by
            simp [quizAttempts, hcall, hparse, hr2]
          rw [hstep] at herr ⊢
          rw [ih _ _ _ herr hr]
          omega
        · have hstep : quizAttempts callModel parseValidate (n+1) msgs le c =
              (Except.error e2, c + 1) := by
            simp [quizAttempts, hcall, hparse, hr2]
          rw [hstep] at herr
          simp at herr
          subst herr
          exact absurd hr hr2
      · have hstep : quizAttempts callModel parseValidate (n+1) msgs le c =
            (Except.ok qs, c + 1) := by
          simp [quizAttempts, hcall, hparse]
        rw [hstep] at herr
        simp at herr


/-- C2: for every retry budget (the clients fix `max_retries = 3`) and every
model backend, both structured-output loops make at most `max_retries`
model calls; when every attempt's output fails JSON parsing or schema
validation, the loop terminates after exactly `max_retries` calls and
raises an error actually produced by parse/validation, of the retried
class — not the generic fallback. -/
theorem retry_cap_and_last_error :
    (∀ (maxRetries : ℕ) (callModel : List Msg → Except String String)
        (parseValidate : String → Except PyErr PlanData) (avail : List Doc)
        (msgs : List Msg),
        (generatePlanWith maxRetries callModel parseValidate avail msgs).2 ≤ maxRetries)
    ∧ (∀ (maxRetries : ℕ) (callModel : List Msg → Except String String)
        (parseValidate : String → Except PyErr (List QuizQuestion)) (msgs : List Msg),
        (generateQuizWith maxRetries callModel parseValidate msgs).2 ≤ maxRetries)
    ∧ (∀ (callModel : List Msg → Except String String)
        (parseValidate : String → Except PyErr PlanData) (avail : List Doc)
        (msgs : List Msg),
        generatePlan callModel parseValidate avail msgs =
          generatePlanWith 3 callModel parseValidate avail msgs)
    ∧ (∀ (callModel : List Msg → Except String String)
        (parseValidate : String → Except PyErr (List QuizQuestion)) (msgs : List Msg),
        generateQuiz callModel parseValidate msgs =
          generateQuizWith 3 callModel parseValidate msgs)
    ∧ (∀ (maxRetries : ℕ) (callModel : List Msg → Except String String)
        (parseValidate : String → Except PyErr PlanData) (avail : List Doc)
        (msgs : List Msg), 0 < maxRetries →
        (∀ m, ∃ t, callModel m = Except.ok t) →
        (∀ t, ∃ e, parseValidate t = Except.error e ∧ isRetryableErr e = true) →
        ∃ e, generatePlanWith maxRetries callModel parseValidate avail msgs =
            (Except.error e, maxRetries) ∧ isRetryableErr e = true ∧
          ∃ t, parseValidate t = Except.error e)
    ∧ (∀ (maxRetries : ℕ) (callModel : List Msg → Except String String)
        (parseValidate : String → Except PyErr (List QuizQuestion))
        (msgs : List Msg), 0 < maxRetries →
        (∀ m, ∃ t, callModel m = Except.ok t) →
        (∀ t, ∃ e, parseValidate t = Except.error e ∧ isRetryableErr e = true) →
        ∃ e, generateQuizWith maxRetries callModel parseValidate msgs =
            (Except.error e, maxRetries) ∧ isRetryableErr e = true ∧
          ∃ t, parseValidate t = Except.error e) := by
  refine ⟨?_, ?_, fun _ _ _ _ => rfl, fun _ _ _ => rfl, ?_, ?_⟩
  · intro maxRetries callModel parseValidate avail msgs
    simpa using planAttempts_calls_le callModel parseValidate avail maxRetries msgs none 0
  · intro maxRetries callModel parseValidate msgs
    simpa using quizAttempts_calls_le callModel parseValidate maxRetries msgs none 0
  · intro maxRetries callModel parseValidate avail msgs h hok hfail
    simpa using planAttempts_all_fail callModel parseValidate avail hok hfail
      maxRetries msgs none 0 h
  · intro maxRetries callModel parseValidate msgs h hok hfail
    simpa using quizAttempts_all_fail callModel parseValidate hok hfail
      maxRetries msgs none 0 h

/-- Witness for C2: a backend that always answers `"oops"` and a validator
that always raises a `JSONDecodeError`, with the clients' budget of 3. -/
theorem retry_cap_and_last_error_witness :
    (0 : ℕ) < 3 ∧
    ∃ e, generatePlanWith 3 (fun _ => Except.ok "oops")
        (fun _ => Except.error (PyErr.jsonDecodeError "bad")) [] [] =
          (Except.error e, 3) ∧ isRetryableErr e = true ∧
      ∃ _t : String, (Except.error (PyErr.jsonDecodeError "bad") : Except PyErr PlanData) =
        Except.error e :=
  ⟨by decide,
    retry_cap_and_last_error.2.2.2.2.1 3 (fun _ => Except.ok "oops")
      (fun _ => Except.error (PyErr.jsonDecodeError "bad")) [] [] (by decide)
      (fun _ => ⟨"oops", rfl⟩) (fun _ => ⟨PyErr.jsonDecodeError "bad", rfl, rfl⟩)⟩

/-- C5 (amended): in both retry loops, a transport failure of the model call
propagates immediately — one call, no retry, the error surfaces as the API
error itself; failures raised as `json.JSONDecodeError` or pydantic
`ValidationError` are retried with the two feedback turns appended, and
such an error only surfaces after the full call budget is spent.  However,
the quiz client's guard for an empty or whitespace-only model response
raises a plain `ValueError`, which is outside the retried class and escapes
the retry path immediately like a transport failure. -/
theorem transport_vs_content_failures :
    (∀ (callModel : List Msg → Except String String)
        (parseValidate : String → Except PyErr PlanData) (avail : List Doc)
        (n : ℕ) (msgs : List Msg) (le : Option PyErr) (c : ℕ) (te : String),
        callModel msgs = Except.error te →
        planAttempts callModel parseValidate avail (n + 1) msgs le c =
          (Except.error (PyErr.apiError te), c + 1))
    ∧ (∀ (callModel : List Msg → Except String String)
        (parseValidate : String → Except PyErr (List QuizQuestion))
        (n : ℕ) (msgs : List Msg) (le : Option PyErr) (c : ℕ) (te : String),
        callModel msgs = Except.error te →
        quizAttempts callModel parseValidate (n + 1) msgs le c =
          (Except.error (PyErr.apiError te), c + 1))
    ∧ (∀ (callModel : List Msg → Except String String)
        (parseValidate : String → Except PyErr PlanData) (avail : List Doc)
        (n : ℕ) (msgs : List Msg) (le : Option PyErr) (c : ℕ) (t : String) (e : PyErr),
        callModel msgs = Except.ok t → parseValidate t = Except.error e →
        isRetryableErr e = true →
        planAttempts callModel parseValidate avail (n + 1) msgs le c =
          planAttempts callModel parseValidate avail n
            (msgs ++ [⟨"assistant", t⟩, correctiveMsg e]) (some e) (c + 1))
    ∧ (∀ (callModel : List Msg → Except String String)
        (parseValidate : String → Except PyErr (List QuizQuestion))
        (n : ℕ) (msgs : List Msg) (le : Option PyErr) (c : ℕ) (t : String) (e : PyErr),
        callModel msgs = Except.ok t → parseValidate t = Except.error e →
        isRetryableErr e = true →
        quizAttempts callModel parseValidate (n + 1) msgs le c =
          quizAttempts callModel parseValidate n
            (msgs ++ [⟨"assistant", t⟩, correctiveMsg e]) (some e) (c + 1))
    ∧ (∀ (maxRetries : ℕ) (callModel : List Msg → Except String String)
        (parseValidate : String → Except PyErr PlanData) (avail : List Doc)
        (msgs : List Msg) (e : PyErr),
        (generatePlanWith maxRetries callModel parseValidate avail msgs).1 =
          Except.error e →
        isRetryableErr e = true →
        (generatePlanWith maxRetries callModel parseValidate avail msgs).2 = maxRetries)
    ∧ (∀ (maxRetries : ℕ) (callModel : List Msg → Except String String)
        (parseValidate : String → Except PyErr (List QuizQuestion))
        (msgs : List Msg) (e : PyErr),
        (generateQuizWith maxRetries callModel parseValidate msgs).1 = Except.error e →
        isRetryableErr e = true →
        (generateQuizWith maxRetries callModel parseValidate msgs).2 = maxRetries)
    ∧ (∀ rest : String → Except PyErr (List QuizQuestion),
        parseAndValidateQuizResponse rest "" =
          Except.error (PyErr.valueError "Empty response from LLM"))
    ∧ isRetryableErr (PyErr.valueError "Empty response from LLM") = false := by
  refine ⟨?_, ?_, ?_, ?_, ?_, ?_, fun _ => rfl, rfl⟩
  · intro callModel parseValidate avail n msgs le c te h
    simp [planAttempts, h]
  · intro callModel parseValidate n msgs le c te h
    simp [quizAttempts, h]
  · intro callModel parseValidate avail n msgs le c t e hc hp hr
    simp [planAttempts, hc, hp, hr]
  · intro callModel parseValidate n msgs le c t e hc hp hr
    simp [quizAttempts, hc, hp, hr]
  · intro maxRetries callModel parseValidate avail msgs e herr hr
    simpa using planAttempts_retryable_error_exhausts callModel parseValidate avail e
      maxRetries msgs none 0 herr hr
  · intro maxRetries callModel parseValidate msgs e herr hr
    simpa using quizAttempts_retryable_error_exhausts callModel parseValidate e
      maxRetries msgs none 0 herr hr

/-- Witness for C5 (amended): concrete instances of the hypothesised
conjuncts — a transport failure on the first call propagates with one call
made, and a retryable parse failure recurses with the feedback appended. -/
theorem transport_vs_content_failures_witness :
    ((fun (_ : List Msg) => (Except.error "boom" : Except String String)) [] =
        Except.error "boom" ∧
      planAttempts (fun _ => Except.error "boom")
        (fun _ => Except.error (PyErr.jsonDecodeError "bad")) [] (2 + 1) [] none 0 =
        (Except.error (PyErr.apiError "boom"), 0 + 1)) ∧
    ((fun (_ : List Msg) => (Except.ok "oops" : Except String String)) [] =
        Except.ok "oops" ∧
      (fun (_ : String) =>
        (Except.error (PyErr.jsonDecodeError "bad") : Except PyErr PlanData)) "oops" =
        Except.error (PyErr.jsonDecodeError "bad") ∧
      isRetryableErr (PyErr.jsonDecodeError "bad") = true ∧
      planAttempts (fun _ => Except.ok "oops")
        (fun _ => Except.error (PyErr.jsonDecodeError "bad")) [] (2 + 1) [] none 0 =
        planAttempts (fun _ => Except.ok "oops")
          (fun _ => Except.error (PyErr.jsonDecodeError "bad")) [] 2
          ([] ++ [⟨"assistant", "oops"⟩, correctiveMsg (PyErr.jsonDecodeError "bad")])
          (some (PyErr.jsonDecodeError "bad")) (0 + 1)) := by
  refine ⟨⟨rfl, ?_⟩, rfl, rfl, rfl, ?_⟩
  · exact transport_vs_content_failures.1 (fun _ => Except.error "boom")
      (fun _ => Except.error (PyErr.jsonDecodeError "bad")) [] 2 [] none 0 "boom" rfl
  · exact transport_vs_content_failures.2.2.1 (fun _ => Except.ok "oops")
      (fun _ => Except.error (PyErr.jsonDecodeError "bad")) [] 2 [] none 0 "oops"
      (PyErr.jsonDecodeError "bad") rfl rfl rfl

/-- Counterexample to C5 as stated: a backend whose transport always succeeds
returns an empty response; the resulting failure is caused by the response
content, yet the quiz client raises it after a single call (1 < cap 3) as a
plain `ValueError` — a content failure escaping the retry path. -/
theorem quiz_empty_response_escapes_retry :
    generateQuiz (fun _ => Except.ok "")
        (parseAndValidateQuizResponse
          (fun _ => Except.error (PyErr.jsonDecodeError "unreachable"))) [] =
      (Except.error (PyErr.valueError "Empty response from LLM"), 1) ∧
    isRetryableErr (PyErr.valueError "Empty response from LLM") = false ∧
    (1 : ℕ) < 3 := by
  refine ⟨?_, rfl, by decide⟩
  have hparse : parseAndValidateQuizResponse
      (fun _ => Except.error (PyErr.jsonDecodeError "unreachable")) "" =
      Except.error (PyErr.valueError "Empty response from LLM") := rfl
  simp [generateQuiz, generateQuizWith, quizAttempts, hparse, isRetryableErr]


/-! ### Enrichment lemmas and theorem (C7) -/

theorem lookupResource_foldl_isSome (id : String) :
    ∀ (l : List Doc) (acc : Option Doc),
      (l.foldl (fun acc r => if r.resource_id = id then some r else acc) acc).isSome = true ↔
        (∃ r ∈ l, r.resource_id = id) ∨ acc.isSome = true := by
  intro l
  induction l with
  | nil => simp
  | cons x xs ih =>
    intro acc
    by_cases hx : x.resource_id = id
    · simp only [List.foldl_cons, if_pos hx, ih]
      constructor
      · intro h
        rcases h with h | h
        · exact Or.inl ⟨x, List.mem_cons_self x xs, hx⟩
        · exact Or.inl ⟨x, List.mem_cons_self x xs, hx⟩
      · intro _
        exact Or.inr rfl
    · simp only [List.foldl_cons, if_neg hx, ih]
      constructor
      · intro h
        rcases h with ⟨r, hr, hid⟩ | h
        · exact Or.inl ⟨r, List.mem_cons_of_mem x hr, hid⟩
        · exact Or.inr h
      · intro h
        rcases h with ⟨r, hr, hid⟩ | h
        · rcases List.mem_cons.1 hr with rfl | hr
          · exact absurd hid hx
          · exact Or.inl ⟨r, hr, hid⟩
        · exact Or.inr h

theorem lookupResource_isSome (avail : List Doc) (id : String) :
    (lookupResource avail id).isSome = true ↔ id ∈ avail.map Doc.resource_id := by
  rw [lookupResource, lookupResource_foldl_isSome]
  simp only [Option.isSome_none, List.mem_map]
  constructor
  · intro h
    rcases h with ⟨r, hr, hid⟩ | h
    · exact ⟨r, hr, hid⟩
    · cases h
  · intro ⟨r, hr, hid⟩
    exact Or.inl ⟨r, hr, hid⟩

/-- C7: enrichment after successful validation is best-effort.  The plan
keeps its milestone structure (nothing is removed, no error is possible);
each resource reference whose id resolves in the candidate set — resolution
succeeds exactly when the id is present among the candidates' ids — is
overlaid with the candidate's title/url/duration_min/level/skills; a
reference whose id does not resolve is returned unchanged, with only its
LLM-provided fields. -/
theorem enrich_plan_best_effort (plan : PlanData) (avail : List Doc) :
    ((enrichPlanData plan avail).milestones.length = plan.milestones.length)
    ∧ ((enrichPlanData plan avail).reasoning = plan.reasoning)
    ∧ (∀ id : String, (lookupResource avail id).isSome = true ↔
        id ∈ avail.map Doc.resource_id)
    ∧ (∀ (i j : ℕ) (r : PlanResource),
        (plan.milestones[i]?.bind (fun m => m.resources[j]?)) = some r →
        ((enrichPlanData plan avail).milestones[i]?.bind (fun m => m.resources[j]?)) =
          some (enrichResource avail r))
    ∧ (∀ i : ℕ, ∀ m, plan.milestones[i]? = some m →
        ∃ m2, (enrichPlanData plan avail).milestones[i]? = some m2 ∧
          m2.resources.length = m.resources.length ∧
          m2.title = m.title ∧ m2.description = m.description ∧
          m2.skills_gained = m.skills_gained ∧ m2.order = m.order)
    ∧ (∀ r : PlanResource, lookupResource avail r.resource_id = none →
        enrichResource avail r = r)
    ∧ (∀ (r : PlanResource) (fr : Doc), lookupResource avail r.resource_id = some fr →
        enrichResource avail r =
          { r with
            title := some fr.title
            url := some fr.url
            duration_min := some fr.duration_min
            level := some fr.level
            skills := some fr.skills }) := by
  refine ⟨by simp [enrichPlanData], rfl, lookupResource_isSome avail, ?_, ?_, ?_, ?_⟩
  · intro i j r h
    rcases hm : plan.milestones[i]? with _ | m
    · rw [hm] at h
      simp at h
    · rw [hm] at h
      simp only [Option.some_bind] at h
      simp [enrichPlanData, hm, h]
  · intro i m hm
    refine ⟨{ m with resources := m.resources.map (enrichResource avail) }, ?_, by simp, rfl,
      rfl, rfl, rfl⟩
    simp [enrichPlanData, hm]
  · intro r h
    simp [enrichResource, h]
  · intro r fr h
    simp [enrichResource, h]

/-- Concrete inputs for the C7 witness: a plan with one milestone holding a
resolvable reference (`"a"`) and an unresolvable one (`"zz"`), and a
single candidate with id `"a"`. -/
def c7res1 : PlanResource := { resource_id := "a", why_included := "w", order := 1 }

def c7res2 : PlanResource := { resource_id := "zz", why_included := "w2", order := 2 }

def c7mile : PlanMilestone :=
  { title := "m"
    description := "d"
    resources := [c7res1, c7res2]
    skills_gained := []
    order := 1 }

def c7plan : PlanData := { milestones := [c7mile], reasoning := "r" }

def c7avail : List Doc := [{ resource_id := "a", title := some "T", url := some "U" }]

/-- Witness for C7 at the concrete inputs above: the resolvable reference is
overlaid, the unresolvable one is returned unchanged. -/
theorem enrich_plan_best_effort_witness :
    (c7plan.milestones[0]?.bind (fun m => m.resources[0]?)) = some c7res1 ∧
    ((enrichPlanData c7plan c7avail).milestones[0]?.bind (fun m => m.resources[0]?)) =
      some (enrichResource c7avail c7res1) ∧
    (lookupResource c7avail "zz" = none ∧ enrichResource c7avail c7res2 = c7res2) ∧
    (lookupResource c7avail "a" =
        some { resource_id := "a", title := some "T", url := some "U" } ∧
      enrichResource c7avail c7res1 =
        { resource_id := "a"
          why_included := "w"
          order := 1
          title := some (some "T")
          url := some (some "U")
          duration_min := some none
          level := some none
          skills := some [] }) := by
  refine ⟨by decide, ?_, ⟨by decide, ?_⟩, ⟨by decide, ?_⟩⟩
  · exact (enrich_plan_best_effort c7plan c7avail).2.2.2.1 0 0 c7res1 (by decide)
  · exact (enrich_plan_best_effort c7plan c7avail).2.2.2.2.2.1 c7res2 (by decide)
  · have h := (enrich_plan_best_effort c7plan c7avail).2.2.2.2.2.2 c7res1
      { resource_id := "a", title := some "T", url := some "U" } (by decide)
    rw [h]
    decide

end LPD
